import Mathlib

/-!
Verification development for the document-loader / page-extraction pipeline of
the repository (`core/src/core/document_loader`).  The Python source files
`document_loader.py` and `image_loader.py` are shallowly embedded below:
strings become `List Char`, byte payloads become `List Nat`, Python dicts with
distinct keys become association lists in insertion order, and every external
library call (PyMuPDF/fitz, PIL, pdf2image, subprocess probes) is modelled by
an explicit environment record whose fields stand for the observable results
of those calls.  Fallible Python code (try/except) is modelled by `Option` /
`Except` plus explicit catch branches.
-/

set_option autoImplicit false

namespace DocLoader

/-! ## Python string primitives

The source manipulates Python `str` values via `strip`, `split`, `upper`,
`lower` and substring tests.  We embed `str` as `List Char` and give each
primitive its CPython semantics (restricted to the ASCII whitespace set
`" \t\n\r\v\f"`, which covers every character the source ever strips). -/

/-- Whitespace recognised by Python `str.strip()` (ASCII part: space, tab,
newline, carriage return, vertical tab, form feed). -/
def isPyWS (c : Char) : Bool :=
  c = ' ' || c = '\t' || c = '\n' || c = '\r' || c = '\x0b' || c = '\x0c'

/-- Python `s.strip()`: drop leading and trailing whitespace. -/
def pyStrip (s : List Char) : List Char :=
  (s.dropWhile isPyWS).rdropWhile isPyWS

/-- Python `sep in s` (substring containment, for a non-empty `sep`). -/
def isSubstr (sep : List Char) : List Char → Bool
  | [] => sep.isEmpty
  | c :: cs => sep.isPrefixOf (c :: cs) || isSubstr sep cs

/-- One step of Python `s.split(sep)`: the segment before the first
occurrence of `sep`, and (when an occurrence exists) the remainder after
that occurrence. -/
def splitStep (sep : List Char) : List Char → List Char × Option (List Char)
  | [] => ([], none)
  | c :: cs =>
    if sep ≠ [] ∧ sep.isPrefixOf (c :: cs) then
      ([], some ((c :: cs).drop sep.length))
    else
      let r := splitStep sep cs
      (c :: r.1, r.2)

/-- Fuel-indexed worker for Python `s.split(sep)`; with fuel larger than the
length of the input (as supplied by `pySplit`) the fuel never runs out. -/
def pySplitFuel (sep : List Char) : Nat → List Char → List (List Char)
  | 0, content => [content]
  | fuel + 1, content =>
    match splitStep sep content with
    | (seg, none) => [seg]
    | (seg, some rest) => seg :: pySplitFuel sep fuel rest

/-- Python `content.split(sep)` for a non-empty separator: split on every
non-overlapping occurrence, leftmost first, keeping empty segments. -/
def pySplit (sep content : List Char) : List (List Char) :=
  pySplitFuel sep (content.length + 1) content

/-- Join a list of segments with a separator (inverse of `pySplit`): the
contents of a Python string rebuilt from its `split` pieces. -/
def joinSep (sep : List Char) : List (List Char) → List Char
  | [] => []
  | [x] => x
  | x :: y :: l => x ++ sep ++ joinSep sep (y :: l)

/-- Python `"\n\n"`, the paragraph separator used by the TXT extractor. -/
def nlnl : List Char := ['\n', '\n']

/-! ## `document_loader.py`: plain-text extraction -/

/-- The fixed marker list of `split_text_into_pages` (line 240 of
`document_loader.py`): `["\f", "----", "****", "======", "# Page", "===",
"---", "***"]`, checked in this order. -/
def page_markers : List (List Char) :=
  [['\x0c'], "----".data, "****".data, "======".data,
   "# Page".data, "===".data, "---".data, "***".data]

/-- The paragraph-packing loop of `split_text_into_pages` (lines 246-259):
accumulate paragraphs into `current_page`, flushing whenever adding the next
paragraph would exceed `max_chars_per_page` while the accumulator is
non-empty; a final non-empty accumulator becomes the last page. -/
def packPages (max_chars_per_page : Nat) :
    List (List Char) → List Char → List (List Char)
  | [], current_page =>
    if current_page ≠ [] then [current_page] else []
  | para :: paras, current_page =>
    if max_chars_per_page < current_page.length + para.length ∧ current_page ≠ [] then
      current_page :: packPages max_chars_per_page paras para
    else
      packPages max_chars_per_page paras
        (if current_page ≠ [] then current_page ++ nlnl ++ para else para)

/-- Model of `split_text_into_pages(content, max_chars_per_page=3000)` (lines
229-261): the first marker (in list order) present anywhere in the content
splits the whole content; otherwise paragraphs (split on `"\n\n"`) are packed
into pages of at most `max_chars_per_page` characters. -/
def split_text_into_pages (content : List Char)
    (max_chars_per_page : Nat := 3000) : List (List Char) :=
  match page_markers.find? (fun marker => isSubstr marker content) with
  | some marker => pySplit marker content
  | none => packPages max_chars_per_page (pySplit nlnl content) []

/-- Model of `extract_text_from_txt` (lines 203-226), applied to the decoded UTF-8
contents of the file: `{i + 1: page.strip() for i, page in enumerate(pages)
if page.strip()}`.  The dict is modelled as the association list produced in
enumeration order; note the key is `i + 1` for the original enumeration index
`i`, whether or not earlier pages were filtered out. -/
def extract_text_from_txt (content : List Char) : List (Nat × List Char) :=
  let pages := split_text_into_pages content
  pages.enum.filterMap fun ip =>
    if pyStrip ip.2 ≠ [] then some (ip.1 + 1, pyStrip ip.2) else none

/-! ## `document_loader.py`: DOCX extraction -/

/-- A `python-docx` paragraph: its `.text` and the string rendering of its
`.style` (`none` models a paragraph whose `style` attribute is missing or
falsy, making the style clause of the page-break test short-circuit). -/
structure Paragraph where
  text : List Char
  style : Option (List Char)

/-- The page-break test of `extract_text_from_docx` (lines 150-158):
`"PAGE BREAK" in para.text.upper() or para.text.strip() == "\f" or
(hasattr(para, "style") and para.style and "page break" in
str(para.style).lower())`. -/
def isPageBreakParagraph (para : Paragraph) : Bool :=
  isSubstr "PAGE BREAK".data (para.text.map Char.toUpper)
    || pyStrip para.text = ['\x0c']
    || (match para.style with
        | some s => isSubstr "page break".data (s.map Char.toLower)
        | none => false)

/-- The paragraph loop of `extract_text_from_docx` (lines 147-166): on a
page-break paragraph flush the stripped accumulator as the next page (if
non-empty) and reset; otherwise append the paragraph text plus `"\n"`; after
the loop, flush a final non-empty accumulator. -/
def docxLoop : List Paragraph → Nat → List Char → List (Nat × List Char)
  | [], current_page, current_text =>
    if pyStrip current_text ≠ [] then [(current_page, pyStrip current_text)] else []
  | para :: paras, current_page, current_text =>
    if isPageBreakParagraph para then
      if pyStrip current_text ≠ [] then
        (current_page, pyStrip current_text) :: docxLoop paras (current_page + 1) []
      else
        docxLoop paras current_page current_text
    else
      docxLoop paras current_page (current_text ++ para.text ++ ['\n'])

/-- Model of `extract_text_from_docx` (lines 129-171), applied to the paragraph
sequence of a successfully opened document (a whole-document parse failure
propagates as an exception and is outside this map-building loop). -/
def extract_text_from_docx (paragraphs : List Paragraph) : List (Nat × List Char) :=
  docxLoop paragraphs 1 []

/-! ## `document_loader.py`: PDF text extraction -/

/-- An opened PDF as seen through fitz: one entry per page, `some text` when
`page.get_text()` returns `text`, `none` when rendering that page throws. -/
structure PdfDoc where
  pages : List (Option String)

/-- Model of `_extract_pdf_page_fitz` (lines 83-95): render one page, returning the
1-indexed page number with its text, or with `""` when any step throws
(including an out-of-range `doc[page_idx]`). -/
def extract_pdf_page_fitz (doc : PdfDoc) (page_idx : Nat) : Nat × String :=
  match doc.pages.get? page_idx with
  | some (some text) => (page_idx + 1, text)
  | some none => (page_idx + 1, "")
  | none => (page_idx + 1, "")

/-- The worker-pool bound `min(max_workers, max(1, page_count))` computed at
line 116 of `document_loader.py` and line 370 of `image_loader.py`. -/
def actualWorkers (max_workers page_count : Nat) : Nat :=
  min max_workers (max 1 page_count)

/-- Model of `extract_text_from_pdf` (lines 98-126).  One task per page index is
submitted to a pool bounded by `actualWorkers`; `completion_order` lists the
page indices in the order the futures complete (any permutation of
`range page_count`), and the dict is the association list assembled in that
order.  Every task returns normally (`_extract_pdf_page_fitz` catches its own
exceptions), so the call itself never fails. -/
def extract_text_from_pdf (doc : PdfDoc) (max_workers : Nat)
    (completion_order : List Nat) : List (Nat × String) :=
  let page_count := doc.pages.length
  let _actual_workers := actualWorkers max_workers page_count
  completion_order.map fun page_idx => extract_pdf_page_fitz doc page_idx

/-! ## `document_loader.py`: format router -/

/-- The typed error taxonomy of `convert_document_to_text` (lines 62-71):
Python `FileNotFoundError`, `DocProcessorUnsupportedFileTypeError` and
`DocProcessorNoExtractorError` from `exceptions.py`. -/
inductive DocProcessorError where
  | fileNotFound (path : List Char)
  | unsupportedFileType (file_type : List Char)
  | noExtractor (file_type : List Char)
deriving DecidableEq

/-- The final path component (`pathlib.PurePath.name`): everything after the
last `/`. -/
def pathName (p : List Char) : List Char :=
  (p.reverse.takeWhile (fun c => c ≠ '/')).reverse

/-- Model of `pathlib.PurePath.suffix`: with `i` the index of the last `.` of the
name, the suffix is `name[i:]` when `0 < i < len(name) - 1`, else `""`. -/
def pathSuffix (p : List Char) : List Char :=
  let name := pathName p
  let after := (name.reverse.takeWhile (fun c => c ≠ '.')).reverse
  if after.length = name.length then []
  else if name.length - after.length - 1 = 0 then []
  else if after = [] then []
  else '.' :: after

/-- Model of `Path(document_path).suffix.lower().lstrip(".")` (line 66). -/
def fileExtOf (p : List Char) : List Char :=
  ((pathSuffix p).map Char.toLower).dropWhile (fun c => c = '.')

/-- Model of `convert_document_to_text` (lines 41-80).  The missing repository file
`document_loader/constants.py` defines `SUPPORTED_FILE_TYPES`; it and the
module-level dispatch table `FILE_TYPES_TO_EXTRACTORS` enter as parameters
(`file_types_to_extractors ext = none` models `ext not in
FILE_TYPES_TO_EXTRACTORS`), the file-system gateway as the predicate
`fs_exists`, and the extractor's output (computed on the temporary local
copy) abstractly as the table's value.  Checks run in source order: existence
first, then the supported set, then the dispatch table. -/
def convert_document_to_text (supported_file_types : List (List Char))
    (file_types_to_extractors : List Char → Option (List (Nat × String)))
    (fs_exists : List Char → Bool)
    (document_path : List Char) : Except DocProcessorError (List (Nat × String)) :=
  if fs_exists document_path = false then
    .error (.fileNotFound document_path)
  else
    let file_ext := fileExtOf document_path
    if file_ext ∈ supported_file_types then
      match file_types_to_extractors file_ext with
      | some extractor_result => .ok extractor_result
      | none => .error (.noExtractor file_ext)
    else
      .error (.unsupportedFileType file_ext)

/-! ## `image_loader.py`: base64 and JPEG payloads

`PIL.Image.save(..., format="JPEG")` writes a byte stream and
`base64.b64encode(...).decode("utf-8")` turns it into the returned string.
Bytes are modelled as `List Nat` (each < 256) and base64 is implemented per
RFC 4648 so that the returned strings are genuinely decodable. -/

/-- The base64 alphabet. -/
def base64Chars : List Char :=
  "ABCDEFGHIJKLMNOPQRSTUVWXYZabcdefghijklmnopqrstuvwxyz0123456789+/".data

/-- Character for a sextet value (< 64). -/
def sextetChar (n : Nat) : Char := base64Chars.getD n '='

/-- Model of `base64.b64encode` on a byte list: 3 bytes become 4 characters, with
`=` padding for a trailing 1- or 2-byte group. -/
def base64Encode : List Nat → List Char
  | [] => []
  | [b0] =>
    [sextetChar (b0 / 4), sextetChar (b0 % 4 * 16), '=', '=']
  | [b0, b1] =>
    [sextetChar (b0 / 4), sextetChar (b0 % 4 * 16 + b1 / 16),
     sextetChar (b1 % 16 * 4), '=']
  | b0 :: b1 :: b2 :: rest =>
    sextetChar (b0 / 4) :: sextetChar (b0 % 4 * 16 + b1 / 16) ::
    sextetChar (b1 % 16 * 4 + b2 / 64) :: sextetChar (b2 % 64) ::
    base64Encode rest

/-- Sextet value of a base64 character. -/
def charSextet (c : Char) : Option Nat :=
  base64Chars.findIdx? (fun d => d = c)

/-- Model of `base64.b64decode` on well-formed input (groups of 4 characters, `=`
padding only in the final group); `none` on malformed input. -/
def base64Decode : List Char → Option (List Nat)
  | [] => some []
  | c0 :: c1 :: c2 :: c3 :: rest =>
    if c2 = '=' ∧ c3 = '=' ∧ rest = [] then do
      let s0 ← charSextet c0
      let s1 ← charSextet c1
      if s1 % 16 = 0 then some [s0 * 4 + s1 / 16] else none
    else if c3 = '=' ∧ rest = [] then do
      let s0 ← charSextet c0
      let s1 ← charSextet c1
      let s2 ← charSextet c2
      if s2 % 4 = 0 then
        some [s0 * 4 + s1 / 16, s1 % 16 * 16 + s2 / 4]
      else none
    else do
      let s0 ← charSextet c0
      let s1 ← charSextet c1
      let s2 ← charSextet c2
      let s3 ← charSextet c3
      let tail ← base64Decode rest
      some ((s0 * 4 + s1 / 16) :: (s1 % 16 * 16 + s2 / 4) :: (s2 % 4 * 64 + s3) :: tail)
  | _ => none

/-- A JPEG byte stream as produced by PIL's JPEG encoder: it starts with the
JFIF start-of-image marker `FF D8`. -/
def isJpeg (bytes : List Nat) : Bool :=
  [255, 216].isPrefixOf bytes

/-! ## `image_loader.py`: single-page rasterization -/

/-- A PDF as seen through fitz for rasterization: `page_count` from
`len(doc)` and, for each 0-indexed page, `render_jpeg i = some bytes` when
the `get_pixmap` / `Image.frombytes` / JPEG-save pipeline on an open
document yields `bytes`, `none` when any of those steps throws.  `open_ok`
is whether `fitz.open` itself succeeds. -/
structure FitzRenderEnv where
  open_ok : Bool
  page_count : Nat
  render_jpeg : Nat → Option (List Nat)

/-- The results of `pdf2image.convert_from_path(path, first_page=page_num,
last_page=page_num)` followed by JPEG re-encoding of each returned image:
`none` when the call throws, `some l` the JPEG bytes of the returned
images. -/
structure Pdf2ImageEnv where
  convert_from_path : Int → Option (List (List Nat))

/-- Model of `convert_pdf_page_to_image_fitz` (lines 110-161): explicit page-range
check returning `""` for `page_num < 1 or page_num > len(doc)`, then the
fitz render pipeline, with every exception caught and mapped to `""`. -/
def convert_pdf_page_to_image_fitz (env : FitzRenderEnv) (page_num : Int) :
    List Char :=
  if env.open_ok = false then []
  else if page_num < 1 ∨ page_num > (env.page_count : Int) then []
  else
    match env.render_jpeg (page_num - 1).toNat with
    | some bytes => base64Encode bytes
    | none => []

/-- Model of `convert_pdf_page_to_image` (lines 164-205), the pdf2image fallback:
`""` when the conversion throws or returns no images, otherwise the base64
encoding of the first image. -/
def convert_pdf_page_to_image (env : Pdf2ImageEnv) (page_num : Int) :
    List Char :=
  match env.convert_from_path page_num with
  | none => []
  | some [] => []
  | some (image :: _) => base64Encode image

/-! ## `image_loader.py`: PPTX slide rasterization -/

/-- The external-converter environment of `convert_pptx_slide_to_image`:
whether the `libreoffice --version` / `unoconv --version` probes succeed,
and the outcome of the chosen conversion subprocess — `none` when the
`check=True` run raises, `some produced` whether the intermediate PDF file
ends up existing (for LibreOffice, `produced = false` also covers the rename
of a missing output file, which raises and is caught). -/
structure PptxConvertEnv where
  libreoffice_available : Bool
  unoconv_available : Bool
  libreoffice_outcome : Option Bool
  unoconv_outcome : Option Bool

/-- Model of `convert_pptx_slide_to_image` (lines 208-296).  The whole body is inside
`try/except` returning `""`, so the model is total: every failure
(no converter binary, subprocess error, missing intermediate PDF) yields
`[]`, and a produced PDF is rasterized with `convert_pdf_page_to_image`. -/
def convert_pptx_slide_to_image (env : PptxConvertEnv) (pdf_env : Pdf2ImageEnv)
    (slide_num : Int) : List Char :=
  if env.libreoffice_available then
    match env.libreoffice_outcome with
    | none => []
    | some false => []
    | some true => convert_pdf_page_to_image pdf_env slide_num
  else if env.unoconv_available then
    match env.unoconv_outcome with
    | none => []
    | some false => []
    | some true => convert_pdf_page_to_image pdf_env slide_num
  else []

/-- Model of `convert_page_to_image` (lines 43-86): dispatch on the lowered,
dot-stripped extension.  PDF prefers the fitz renderer and falls back to
pdf2image when it returns an empty/falsy result; DOCX and the plain-text
types return `""` with a warning; PPTX routes through the external
converter; any other extension raises `ValueError` (the `.error` branch).
`text_file_types` stands for the missing `constants.py` value
`TEXT_FILE_TYPES`. -/
def convert_page_to_image (env : FitzRenderEnv) (p2 : Pdf2ImageEnv)
    (pptx_env : PptxConvertEnv) (text_file_types : List (List Char))
    (document_path : List Char) (page_num : Int) :
    Except (List Char) (List Char) :=
  let file_ext := fileExtOf document_path
  if file_ext = "pdf".data then
    let result := convert_pdf_page_to_image_fitz env page_num
    if result ≠ [] then .ok result
    else .ok (convert_pdf_page_to_image p2 page_num)
  else if file_ext = "docx".data then .ok []
  else if file_ext = "pptx".data then
    .ok (convert_pptx_slide_to_image pptx_env p2 page_num)
  else if file_ext ∈ text_file_types then .ok []
  else .error ("Unsupported file type for image conversion: ".data ++ file_ext)

/-! ## `image_loader.py`: bulk conversion -/

/-- Model of `_process_pdf_page_fitz` (lines 89-107).  The source opens the document
in a `with` block that only extracts `page = doc[page_idx]`; the block then
closes the document, and `page.get_pixmap(...)` runs on a page of a closed
document.  `get_pixmap` on a closed document raises, which the helper models
with `doc_open`: when it is `false`, the pixmap step yields `none`. -/
def getPixmapJpeg (env : FitzRenderEnv) (page_idx : Nat) (doc_open : Bool) :
    Option (List Nat) :=
  if doc_open = false then none else env.render_jpeg page_idx

/-- Model of `_process_pdf_page_fitz` (lines 89-107): obtain the page inside the
`with` block, leave the block (closing the document), then request the
pixmap; any exception is caught and mapped to `(page_idx + 1, "")`. -/
def process_pdf_page_fitz (env : FitzRenderEnv) (page_idx : Nat) :
    Nat × List Char :=
  if env.open_ok = false ∨ env.page_count ≤ page_idx then
    (page_idx + 1, [])
  else
    let doc_open_after_with := false
    match getPixmapJpeg env page_idx doc_open_after_with with
    | some bytes => (page_idx + 1, base64Encode bytes)
    | none => (page_idx + 1, [])

/-- Model of `convert_pdf_to_images_fitz` (lines 341-395).  `completion_order` lists
the 0-indexed pages in future-completion order (a permutation of
`range page_count`); a per-page result is kept only when its string is
non-empty (`if img_base64:` at line 385).  The enclosing `try/except`
returns `{}` when opening the document for its page count fails, and makes
the function total. -/
def convert_pdf_to_images_fitz (env : FitzRenderEnv) (max_workers : Nat)
    (completion_order : List Nat) : List (Nat × List Char) :=
  if env.open_ok = false then []
  else
    let _actual_workers := actualWorkers max_workers env.page_count
    (completion_order.map fun page_idx => process_pdf_page_fitz env page_idx).filterMap
      fun pr => if pr.2 ≠ [] then some pr else none

/-- Model of `convert_pdf_to_images_pdf2image` (lines 398-437): convert every page
via pdf2image (its outcome as a `Pdf2ImageEnv`-style field: `none` when the
call throws), storing results 1-indexed; exceptions yield `{}`. -/
def convert_pdf_to_images_pdf2image (all_images : Option (List (List Nat))) :
    List (Nat × List Char) :=
  match all_images with
  | none => []
  | some images => images.enum.map fun ii => (ii.1 + 1, base64Encode ii.2)

/-- Model of `convert_document_pages_to_images` (lines 299-338) for the PDF branch:
`try: return convert_pdf_to_images_fitz(...) except: ...` followed by the
pdf2image fallback.  Because the fitz bulk converter catches all of its own
exceptions, the `try` always takes the `.ok` branch; the `match` renders the
source's exception handler, and non-PDF extensions return `{}`. -/
def convert_document_pages_to_images (env : FitzRenderEnv)
    (fallback_images : Option (List (List Nat))) (path : List Char)
    (max_workers : Nat) (completion_order : List Nat) : List (Nat × List Char) :=
  let file_ext := fileExtOf path
  if file_ext = "pdf".data then
    match (Except.ok (convert_pdf_to_images_fitz env max_workers completion_order) :
        Except Unit (List (Nat × List Char))) with
    | .ok result => result
    | .error _ => convert_pdf_to_images_pdf2image fallback_images
  else []

/-! ## Lemmas about the Python string primitives -/

theorem dropWhile_head_false {α : Type} (p : α → Bool) :
    ∀ (l : List α) (c : α) (rest : List α),
      l.dropWhile p = c :: rest → p c = false := by
  intro l
  induction l with
  | nil => intro c rest h; simp [List.dropWhile] at h
  | cons a l ih =>
    intro c rest h
    by_cases hp : p a
    · rw [List.dropWhile_cons_of_pos hp] at h
      exact ih c rest h
    · rw [List.dropWhile_cons_of_neg hp] at h
      obtain ⟨rfl, -⟩ := List.cons.inj h
      simpa using hp

theorem pyStrip_head_not_ws (s : List Char) (c : Char) (rest : List Char)
    (h : pyStrip s = c :: rest) : isPyWS c = false := by
  unfold pyStrip at h
  have hpre : List.rdropWhile isPyWS (s.dropWhile isPyWS) <+: s.dropWhile isPyWS :=
    List.rdropWhile_prefix _ _
  rw [h] at hpre
  obtain ⟨t, ht⟩ := hpre
  exact dropWhile_head_false isPyWS s c (rest ++ t) (by rw [← ht]; simp)

theorem pyStrip_ne_formfeed (t : List Char) : pyStrip t ≠ ['\x0c'] := by
  intro h
  have := pyStrip_head_not_ws t '\x0c' [] h
  simp [isPyWS] at this

theorem splitStep_none (sep : List Char) :
    ∀ (content seg : List Char),
      splitStep sep content = (seg, none) → seg = content := by
  intro content
  induction content with
  | nil =>
    intro seg h
    simp only [splitStep] at h
    injection h with h1 h2
    exact h1.symm
  | cons c cs ih =>
    intro seg h
    by_cases hc : sep ≠ [] ∧ sep.isPrefixOf (c :: cs)
    · simp [splitStep, hc] at h
    · simp only [splitStep, if_neg hc] at h
      rcases hr : splitStep sep cs with ⟨seg', orest⟩
      rw [hr] at h
      cases orest with
      | none =>
        injection h with h1 h2
        rw [← h1, ih seg' hr]
      | some rest =>
        injection h with h1 h2
        exact absurd h2 (by simp)

theorem splitStep_some (sep : List Char) :
    ∀ (content seg rest : List Char),
      splitStep sep content = (seg, some rest) →
      content = seg ++ sep ++ rest ∧ sep ≠ [] := by
  intro content
  induction content with
  | nil => intro seg rest h; simp [splitStep] at h
  | cons c cs ih =>
    intro seg rest h
    by_cases hc : sep ≠ [] ∧ sep.isPrefixOf (c :: cs)
    · simp only [splitStep, if_pos hc] at h
      injection h with h1 h2
      injection h2 with h2
      obtain ⟨hsep, hpre⟩ := hc
      obtain ⟨t, ht⟩ := List.isPrefixOf_iff_prefix.mp hpre
      have hdrop : (c :: cs).drop sep.length = t := by
        rw [← ht]; exact List.drop_left sep t
      rw [hdrop] at h2
      subst h1
      refine ⟨?_, hsep⟩
      rw [← h2, ← ht]
      simp
    · simp only [splitStep, if_neg hc] at h
      rcases hr : splitStep sep cs with ⟨seg', orest⟩
      rw [hr] at h
      cases orest with
      | none =>
        injection h with h1 h2
        exact absurd h2 (by simp)
      | some rest' =>
        injection h with h1 h2
        injection h2 with h2
        obtain ⟨hcs, hsep⟩ := ih seg' rest' hr
        subst h2
        refine ⟨?_, hsep⟩
        rw [← h1, hcs]
        simp

theorem pySplitFuel_ne_nil (sep : List Char) :
    ∀ (fuel : Nat) (content : List Char), pySplitFuel sep fuel content ≠ [] := by
  intro fuel
  induction fuel with
  | zero => intro content; simp [pySplitFuel]
  | succ fuel ih =>
    intro content
    rcases hr : splitStep sep content with ⟨seg, orest⟩
    cases orest <;> simp [pySplitFuel, hr]

theorem joinSep_pySplitFuel (sep : List Char) :
    ∀ (fuel : Nat) (content : List Char), content.length < fuel →
      joinSep sep (pySplitFuel sep fuel content) = content := by
  intro fuel
  induction fuel with
  | zero => intro content h; omega
  | succ fuel ih =>
    intro content hlen
    rcases hr : splitStep sep content with ⟨seg, orest⟩
    cases orest with
    | none =>
      have := splitStep_none sep content seg hr
      simp [pySplitFuel, hr, joinSep, this]
    | some rest =>
      obtain ⟨hcontent, hsep⟩ := splitStep_some sep content seg rest hr
      have hseplen : 1 ≤ sep.length := by
        cases sep with
        | nil => exact absurd rfl hsep
        | cons a l => simp
      have hrest : rest.length < fuel := by
        have : content.length = seg.length + sep.length + rest.length := by
          rw [hcontent, List.length_append, List.length_append]
        omega
      obtain ⟨y, l, hyl⟩ :=
        List.exists_cons_of_ne_nil (pySplitFuel_ne_nil sep fuel rest)
      have hjoin := ih rest hrest
      rw [hyl] at hjoin
      simp only [pySplitFuel, hr, hyl, joinSep]
      rw [hjoin, hcontent]

theorem joinSep_pySplit (sep content : List Char) :
    joinSep sep (pySplit sep content) = content :=
  joinSep_pySplitFuel sep (content.length + 1) content (by omega)

theorem joinSep_cons (sep : List Char) :
    ∀ (qs : List (List Char)) (q : List Char),
      joinSep sep (q :: qs) = q ++ (qs.map fun p => sep ++ p).flatten := by
  intro qs
  induction qs with
  | nil => intro q; simp [joinSep]
  | cons y l ih =>
    intro q
    simp only [joinSep, List.map_cons, List.flatten_cons]
    rw [ih y]
    simp [List.append_assoc]

/-! ## Lemmas about paragraph packing -/

theorem packPages_fits (m : Nat) :
    ∀ (paras : List (List Char)) (cur : List Char), cur ≠ [] →
      cur.length + ((paras.map fun p => nlnl ++ p).flatten).length ≤ m →
      packPages m paras cur = [cur ++ (paras.map fun p => nlnl ++ p).flatten] := by
  intro paras
  induction paras with
  | nil => intro cur hcur _; simp [packPages, hcur]
  | cons p ps ih =>
    intro cur hcur hlen
    simp only [List.map_cons, List.flatten_cons, List.length_append, nlnl,
      List.length_cons, List.length_nil] at hlen
    have hcond : ¬(m < cur.length + p.length ∧ cur ≠ []) := by
      rintro ⟨hlt, -⟩
      omega
    simp only [packPages]
    rw [if_neg hcond, if_pos hcur]
    rw [ih (cur ++ nlnl ++ p) (by simp [nlnl]) (by
      simp only [List.length_append, nlnl, List.length_cons, List.length_nil]
      omega)]
    simp [List.append_assoc]

theorem packPages_dropWhile_empty (m : Nat) :
    ∀ paras : List (List Char),
      packPages m paras [] = packPages m (paras.dropWhile fun p => p.isEmpty) [] := by
  intro paras
  induction paras with
  | nil => rfl
  | cons p ps ih =>
    by_cases hp : p = []
    · subst hp
      rw [List.dropWhile_cons_of_pos (by simp), ← ih]
      simp only [packPages]
      rw [if_neg (by simp), if_neg (by simp)]
    · rw [List.dropWhile_cons_of_neg (by simp [hp])]

theorem packPages_cons_of_ne (m : Nat) (p : List Char) (ps : List (List Char)) :
    packPages m (p :: ps) [] = packPages m ps p := by
  simp only [packPages]
  rw [if_neg (by simp), if_neg (by simp)]

theorem packPages_all_empty (m : Nat) (paras : List (List Char))
    (h : ∀ p ∈ paras, p = []) : packPages m paras [] = [] := by
  rw [packPages_dropWhile_empty m paras]
  rw [List.dropWhile_eq_nil_iff.mpr (by intro x hx; simp [h x hx])]
  simp [packPages]

theorem joinSep_dropWhile_length (sep : List Char) :
    ∀ paras : List (List Char),
      (joinSep sep (paras.dropWhile fun p => p.isEmpty)).length
        ≤ (joinSep sep paras).length := by
  intro paras
  induction paras with
  | nil => simp
  | cons p ps ih =>
    by_cases hp : p = []
    · subst hp
      rw [List.dropWhile_cons_of_pos (by simp)]
      refine le_trans ih ?_
      cases ps with
      | nil => simp [joinSep]
      | cons y l =>
        simp only [joinSep, List.length_append, List.nil_append]
        omega
    · rw [List.dropWhile_cons_of_neg (by simp [hp])]

theorem split_text_no_marker (content : List Char)
    (hm : ∀ marker ∈ page_markers, isSubstr marker content = false) :
    split_text_into_pages content = packPages 3000 (pySplit nlnl content) [] := by
  unfold split_text_into_pages
  rw [List.find?_eq_none.mpr (by intro x hx; simp [hm x hx])]

/-! ## Lemmas about base64 -/

theorem charSextet_sextetChar : ∀ s : Nat, s < 64 →
    charSextet (sextetChar s) = some s := by decide

theorem sextetChar_ne_eq : ∀ s : Nat, s < 64 → sextetChar s ≠ '=' := by decide

theorem base64Encode_ne_nil (bs : List Nat) (h : bs ≠ []) :
    base64Encode bs ≠ [] := by
  match bs with
  | [] => exact absurd rfl h
  | [b0] => simp [base64Encode]
  | [b0, b1] => simp [base64Encode]
  | b0 :: b1 :: b2 :: rest => simp [base64Encode]

theorem base64_roundtrip_aux :
    ∀ (n : Nat) (bs : List Nat), bs.length ≤ n → (∀ x ∈ bs, x < 256) →
      base64Decode (base64Encode bs) = some bs := by
  intro n
  induction n with
  | zero =>
    intro bs hlen _
    have : bs = [] := List.length_eq_zero.mp (Nat.le_zero.mp hlen)
    subst this
    rfl
  | succ n ih =>
    intro bs hlen hbound
    match bs with
    | [] => rfl
    | [b0] =>
      have hb0 : b0 < 256 := hbound b0 (by simp)
      have h0 : b0 / 4 < 64 := by omega
      have h1 : b0 % 4 * 16 < 64 := by omega
      have hmod : b0 % 4 * 16 % 16 = 0 := by omega
      have hbyte : b0 / 4 * 4 + b0 % 4 * 16 / 16 = b0 := by omega
      simp [base64Encode, base64Decode, charSextet_sextetChar _ h0,
        charSextet_sextetChar _ h1, hmod, hbyte]
      try omega
    | [b0, b1] =>
      have hb0 : b0 < 256 := hbound b0 (by simp)
      have hb1 : b1 < 256 := hbound b1 (by simp)
      have h0 : b0 / 4 < 64 := by omega
      have h1 : b0 % 4 * 16 + b1 / 16 < 64 := by omega
      have h2 : b1 % 16 * 4 < 64 := by omega
      have hne : sextetChar (b1 % 16 * 4) ≠ '=' := sextetChar_ne_eq _ h2
      have hmod : b1 % 16 * 4 % 4 = 0 := by omega
      have hbyte0 : b0 / 4 * 4 + (b0 % 4 * 16 + b1 / 16) / 16 = b0 := by omega
      have hbyte1 : (b0 % 4 * 16 + b1 / 16) % 16 * 16 + b1 % 16 * 4 / 4 = b1 := by
        omega
      simp [base64Encode, base64Decode, hne, charSextet_sextetChar _ h0,
        charSextet_sextetChar _ h1, charSextet_sextetChar _ h2, hmod,
        hbyte0, hbyte1]
      try omega
    | b0 :: b1 :: b2 :: rest =>
      have hb0 : b0 < 256 := hbound b0 (by simp)
      have hb1 : b1 < 256 := hbound b1 (by simp)
      have hb2 : b2 < 256 := hbound b2 (by simp)
      have h0 : b0 / 4 < 64 := by omega
      have h1 : b0 % 4 * 16 + b1 / 16 < 64 := by omega
      have h2 : b1 % 16 * 4 + b2 / 64 < 64 := by omega
      have h3 : b2 % 64 < 64 := by omega
      have hrest : base64Decode (base64Encode rest) = some rest := by
        refine ih rest ?_ fun x hx => hbound x (by simp [hx])
        simp only [List.length_cons] at hlen
        omega
      have hne1 : sextetChar (b1 % 16 * 4 + b2 / 64) ≠ '=' := sextetChar_ne_eq _ h2
      have hne2 : sextetChar (b2 % 64) ≠ '=' := sextetChar_ne_eq _ h3
      have hbyte0 : b0 / 4 * 4 + (b0 % 4 * 16 + b1 / 16) / 16 = b0 := by omega
      have hbyte1 : (b0 % 4 * 16 + b1 / 16) % 16 * 16
          + (b1 % 16 * 4 + b2 / 64) / 4 = b1 := by omega
      have hbyte2 : (b1 % 16 * 4 + b2 / 64) % 4 * 64 + b2 % 64 = b2 := by omega
      simp [base64Encode, base64Decode, hne1, hne2,
        charSextet_sextetChar _ h0, charSextet_sextetChar _ h1,
        charSextet_sextetChar _ h2, charSextet_sextetChar _ h3, hrest,
        hbyte0, hbyte1, hbyte2]
      try omega

theorem base64_roundtrip (bs : List Nat) (h : ∀ x ∈ bs, x < 256) :
    base64Decode (base64Encode bs) = some bs :=
  base64_roundtrip_aux bs.length bs le_rfl h


/-! ## Lemmas for the PDF text extractor -/

theorem extract_pdf_page_fitz_fst (doc : PdfDoc) (page_idx : Nat) :
    (extract_pdf_page_fitz doc page_idx).1 = page_idx + 1 := by
  unfold extract_pdf_page_fitz
  rcases doc.pages.get? page_idx with - | (- | t) <;> rfl

theorem lookup_extract_page (doc : PdfDoc) :
    ∀ (order : List Nat) (i : Nat) (el : Option String), i ∈ order →
      doc.pages.get? i = some el →
      List.lookup (i + 1) (order.map fun j => extract_pdf_page_fitz doc j)
        = some (el.getD "") := by
  intro order
  induction order with
  | nil => intro i el hmem _; simp at hmem
  | cons j rest ih =>
    intro i el hmem hel
    by_cases hij : j = i
    · subst hij
      have hval : extract_pdf_page_fitz doc j = (j + 1, el.getD "") := by
        unfold extract_pdf_page_fitz
        rw [hel]
        cases el <;> rfl
      rw [List.map_cons, hval]
      simp [List.lookup]
    · have hmem' : i ∈ rest := by
        rcases List.mem_cons.mp hmem with h | h
        · exact absurd h.symm hij
        · exact h
      have hfst : extract_pdf_page_fitz doc j = (j + 1, (extract_pdf_page_fitz doc j).2) := by
        rw [← extract_pdf_page_fitz_fst doc j]
      have hbeq : ((i + 1 : Nat) == (j + 1)) = false :=
        beq_eq_false_iff_ne.mpr (fun h => hij (by omega))
      rw [List.map_cons, hfst]
      simp only [List.lookup, hbeq]
      exact ih i el hmem' hel


/-! ## Claim theorems -/

/-- C1: for every PDF document with `N ≥ 1` pages and every
`max_workers ≥ 1`, `extract_text_from_pdf` returns a map whose key set is
exactly `{1, ..., N}` — every page contributes an entry regardless of the
order in which the page futures complete — and a page whose rendering throws
(`doc.pages.get? i = some none`) contributes `""` for page `i + 1` while a
page that renders text `t` contributes `t`; the call itself is total, so no
per-page failure fails the whole extraction. -/
theorem c1_pdf_text_page_map (doc : PdfDoc) (max_workers : Nat)
    (completion_order : List Nat)
    (hw : 1 ≤ max_workers)
    (hN : 1 ≤ doc.pages.length)
    (hperm : completion_order.Perm (List.range doc.pages.length)) :
    ((extract_text_from_pdf doc max_workers completion_order).map Prod.fst).toFinset
        = Finset.Icc 1 doc.pages.length
    ∧ ∀ i el, doc.pages.get? i = some el →
        List.lookup (i + 1) (extract_text_from_pdf doc max_workers completion_order)
          = some (el.getD "") := by
  constructor
  · ext m
    simp only [List.mem_toFinset, List.mem_map, extract_text_from_pdf,
      Finset.mem_Icc]
    constructor
    · rintro ⟨pr, ⟨i, hi, rfl⟩, rfl⟩
      have hrange : i ∈ List.range doc.pages.length := hperm.mem_iff.mp hi
      rw [List.mem_range] at hrange
      rw [extract_pdf_page_fitz_fst]
      omega
    · rintro ⟨h1, h2⟩
      refine ⟨extract_pdf_page_fitz doc (m - 1), ⟨m - 1, ?_, rfl⟩, ?_⟩
      · exact hperm.mem_iff.mpr (List.mem_range.mpr (by omega))
      · rw [extract_pdf_page_fitz_fst]
        omega
  · intro i el hel
    have hlen : i < doc.pages.length := by
      rcases List.get?_eq_some.mp hel with ⟨h, -⟩
      exact h
    exact lookup_extract_page doc completion_order i el
      (hperm.mem_iff.mpr (List.mem_range.mpr hlen)) hel

/-- Witness for C1 at a concrete two-page document (page 1 renders `"x"`,
page 2 throws) with the futures completing out of order. -/
theorem c1_pdf_text_page_map_witness :
    ((extract_text_from_pdf ⟨[some "x", none]⟩ 5 [1, 0]).map Prod.fst).toFinset
        = Finset.Icc 1 2
    ∧ List.lookup 2 (extract_text_from_pdf ⟨[some "x", none]⟩ 5 [1, 0]) = some ""
    ∧ List.lookup 1 (extract_text_from_pdf ⟨[some "x", none]⟩ 5 [1, 0]) = some "x" := by
  have h := c1_pdf_text_page_map ⟨[some "x", none]⟩ 5 [1, 0]
    (by decide) (by decide) (by decide)
  exact ⟨h.1, h.2 1 none (by decide), h.2 0 (some "x") (by decide)⟩

/-- C2: the worker-pool bound computed by both `extract_text_from_pdf`
(`document_loader.py` line 116) and `convert_pdf_to_images_fitz`
(`image_loader.py` line 370) equals `min(max_workers, max(1, page_count))`,
never exceeds `page_count` for a document with at least one page, and is
never zero when `max_workers ≥ 1`, even for a zero-page document. -/
theorem c2_actual_workers (max_workers page_count : Nat)
    (hw : 1 ≤ max_workers) :
    actualWorkers max_workers page_count = min max_workers (max 1 page_count)
    ∧ (1 ≤ page_count → actualWorkers max_workers page_count ≤ page_count)
    ∧ 1 ≤ actualWorkers max_workers page_count := by
  refine ⟨rfl, ?_, ?_⟩ <;> (unfold actualWorkers; omega)

/-- Witness for C2 at `max_workers = 7`, `page_count = 3` and at a zero-page
document. -/
theorem c2_actual_workers_witness :
    (actualWorkers 7 3 = min 7 (max 1 3)
      ∧ (1 ≤ 3 → actualWorkers 7 3 ≤ 3) ∧ 1 ≤ actualWorkers 7 3)
    ∧ 1 ≤ actualWorkers 7 0 :=
  ⟨c2_actual_workers 7 3 (by decide), (c2_actual_workers 7 0 (by decide)).2.2⟩

/-- C3: `convert_document_to_text` validates in a fixed order with typed
errors — a path the file system lacks raises `FileNotFoundError` regardless
of extension; an existing path whose lowered extension is outside the
supported set raises `DocProcessorUnsupportedFileTypeError`; and an existing
path whose extension is supported but absent from the dispatch table raises
the distinct `DocProcessorNoExtractorError`. -/
theorem c3_router_errors (supported_file_types : List (List Char))
    (file_types_to_extractors : List Char → Option (List (Nat × String)))
    (fs_exists : List Char → Bool) (document_path : List Char) :
    (fs_exists document_path = false →
      convert_document_to_text supported_file_types file_types_to_extractors
          fs_exists document_path
        = .error (.fileNotFound document_path))
    ∧ (fs_exists document_path = true →
        fileExtOf document_path ∉ supported_file_types →
        convert_document_to_text supported_file_types file_types_to_extractors
            fs_exists document_path
          = .error (.unsupportedFileType (fileExtOf document_path)))
    ∧ (fs_exists document_path = true →
        fileExtOf document_path ∈ supported_file_types →
        file_types_to_extractors (fileExtOf document_path) = none →
        convert_document_to_text supported_file_types file_types_to_extractors
            fs_exists document_path
          = .error (.noExtractor (fileExtOf document_path))) := by
  refine ⟨?_, ?_, ?_⟩
  · intro h
    simp [convert_document_to_text, h]
  · intro h hsup
    simp [convert_document_to_text, h, hsup]
  · intro h hsup hext
    simp [convert_document_to_text, h, hsup, hext]

/-- Witness for C3: a concrete file system containing `a.xyz` and `b.docx`
but not `gone.pdf`, with `pdf` and `docx` supported and only `pdf` wired to
an extractor. -/
theorem c3_router_errors_witness :
    convert_document_to_text ["pdf".data, "docx".data]
        (fun e => if e = "pdf".data then some [] else none)
        (fun p => !(p = "gone.pdf".data)) "gone.pdf".data
      = .error (.fileNotFound "gone.pdf".data)
    ∧ convert_document_to_text ["pdf".data, "docx".data]
        (fun e => if e = "pdf".data then some [] else none)
        (fun p => !(p = "gone.pdf".data)) "a.xyz".data
      = .error (.unsupportedFileType (fileExtOf "a.xyz".data))
    ∧ convert_document_to_text ["pdf".data, "docx".data]
        (fun e => if e = "pdf".data then some [] else none)
        (fun p => !(p = "gone.pdf".data)) "b.docx".data
      = .error (.noExtractor (fileExtOf "b.docx".data)) :=
  ⟨(c3_router_errors _ _ _ _).1 (by decide),
   (c3_router_errors _ _ _ _).2.1 (by decide) (by decide),
   (c3_router_errors _ _ _ _).2.2 (by decide) (by decide) (by decide)⟩


/-- C4 counterexample: for the TXT content `"---A"` the marker split yields
pages `["", "A"]`; the empty page 1 is discarded but the surviving page keeps
its original position key `2`, so the returned key list `[2]` is not the
dense numbering `[1]` the claim requires. -/
theorem c4_counterexample :
    extract_text_from_txt "---A".data = [(2, "A".data)]
    ∧ (extract_text_from_txt "---A".data).map Prod.fst
        ≠ (List.range (extract_text_from_txt "---A".data).length).map
            (fun i => i + 1) := by
  constructor
  · decide
  · decide

/-- C4 amended: `extract_text_from_txt` splits via `split_text_into_pages`
and discards pages that are empty after stripping, but it keys each
surviving page by its original 1-indexed position in the split (the dict
comprehension uses the enumeration index `i + 1`), so discarded pages leave
gaps in the key set; every returned entry `(n, t)` satisfies
`1 ≤ n ≤ #pages` with `t` the stripped original page `n`, and every page
with non-empty strip appears under its original position. -/
theorem c4_amended (content : List Char) :
    (∀ pr ∈ extract_text_from_txt content,
        1 ≤ pr.1 ∧ pr.1 ≤ (split_text_into_pages content).length
          ∧ pyStrip ((split_text_into_pages content).getD (pr.1 - 1) []) = pr.2
          ∧ pr.2 ≠ [])
    ∧ (∀ i, i < (split_text_into_pages content).length →
        pyStrip ((split_text_into_pages content).getD i []) ≠ [] →
        (i + 1, pyStrip ((split_text_into_pages content).getD i []))
          ∈ extract_text_from_txt content) := by
  constructor
  · rintro ⟨n, t⟩ hmem
    unfold extract_text_from_txt at hmem
    rw [List.mem_filterMap] at hmem
    obtain ⟨⟨i, page⟩, hin, hf⟩ := hmem
    rw [List.mem_enum_iff_getElem?] at hin
    by_cases hs : pyStrip page ≠ []
    · rw [if_pos hs] at hf
      injection hf with hf
      injection hf with hf1 hf2
      obtain ⟨hilt, hig⟩ := List.getElem?_eq_some.mp hin
      subst hf1
      refine ⟨by omega, by omega, ?_, by rw [← hf2]; exact hs⟩
      rw [List.getD_eq_getElem?_getD, Nat.add_sub_cancel,
        List.getElem?_eq_getElem hilt, hig]
      exact hf2
    · rw [if_neg hs] at hf
      exact absurd hf (by simp)
  · intro i hi hne
    unfold extract_text_from_txt
    have hD : (split_text_into_pages content).getD i []
        = (split_text_into_pages content)[i] := by
      rw [List.getD_eq_getElem?_getD, List.getElem?_eq_getElem hi]
      rfl
    rw [List.mem_filterMap]
    refine ⟨(i, (split_text_into_pages content).getD i []), ?_, ?_⟩
    · rw [List.mem_enum_iff_getElem?, hD]
      exact List.getElem?_eq_getElem hi
    · rw [if_pos hne]

/-- Witness for C4 amended at the content `"---A"`: the surviving page is
returned under key `2 = 1 + 1`, its original split position. -/
theorem c4_amended_witness :
    (2, pyStrip ((split_text_into_pages "---A".data).getD 1 []))
      ∈ extract_text_from_txt "---A".data :=
  (c4_amended "---A".data).2 1 (by decide) (by decide)

/-- C5 counterexample: the empty content and the content `"\n\na"` both
contain no page marker and are far below 3000 characters, yet the first
yields no pages at all (not one page) and the second yields the single page
`"a"`, not the whole text (leading blank-line separators are dropped by the
paragraph packer). -/
theorem c5_counterexample :
    page_markers.all (fun marker => !(isSubstr marker "".data)) = true
    ∧ "".data.length < 3000
    ∧ split_text_into_pages "".data = []
    ∧ (split_text_into_pages "".data).length ≠ 1
    ∧ page_markers.all (fun marker => !(isSubstr marker "\n\na".data)) = true
    ∧ "\n\na".data.length < 3000
    ∧ split_text_into_pages "\n\na".data = ["a".data]
    ∧ "a".data ≠ "\n\na".data := by
  refine ⟨by decide, by decide, by decide, by decide, by decide, by decide,
    by decide, by decide⟩


/-- C5 amended: the marker list is checked in fixed order and the first
marker present splits the whole content, so `"A\n\n---\n\nB"` extracts to
exactly the two pages `"A"` and `"B"`; and for marker-free content shorter
than 3000 characters the paragraph packer returns no page when every
blank-line-separated paragraph is empty, and otherwise exactly one page —
the whole text with its leading empty paragraphs (and their separators)
dropped, hence equal to the whole text whenever the first paragraph is
non-empty. -/
theorem c5_amended :
    extract_text_from_txt "A\n\n---\n\nB".data = [(1, "A".data), (2, "B".data)]
    ∧ ∀ content : List Char,
        (∀ marker ∈ page_markers, isSubstr marker content = false) →
        content.length < 3000 →
        ((∀ p ∈ pySplit nlnl content, p = []) →
          split_text_into_pages content = [])
        ∧ (∀ q qs,
            (pySplit nlnl content).dropWhile (fun p => p.isEmpty) = q :: qs →
            split_text_into_pages content = [joinSep nlnl (q :: qs)])
        ∧ (∀ q qs, pySplit nlnl content = q :: qs → q ≠ [] →
            split_text_into_pages content = [content]) := by
  constructor
  · decide
  · intro content hm hlen
    have hsplit := split_text_no_marker content hm
    have hjoin := joinSep_pySplit nlnl content
    refine ⟨?_, ?_, ?_⟩
    · intro hall
      rw [hsplit]
      exact packPages_all_empty 3000 _ hall
    · intro q qs hdrop
      have hq : q ≠ [] := by
        have := dropWhile_head_false (fun p => p.isEmpty) _ q qs hdrop
        simpa using this
      have hlen2 : (joinSep nlnl (q :: qs)).length ≤ content.length := by
        have h1 := joinSep_dropWhile_length nlnl (pySplit nlnl content)
        rw [hdrop, hjoin] at h1
        exact h1
      have hglue : q.length
          + ((qs.map fun p => nlnl ++ p).flatten).length ≤ 3000 := by
        have := joinSep_cons nlnl qs q
        have hlen3 : (joinSep nlnl (q :: qs)).length
            = q.length + ((qs.map fun p => nlnl ++ p).flatten).length := by
          rw [this, List.length_append]
        omega
      rw [hsplit, packPages_dropWhile_empty, hdrop, packPages_cons_of_ne,
        packPages_fits 3000 qs q hq hglue, joinSep_cons]
    · intro q qs hsp hq
      have hdrop : (pySplit nlnl content).dropWhile (fun p => p.isEmpty)
          = q :: qs := by
        rw [hsp]
        exact List.dropWhile_cons_of_neg (by simpa using hq)
      have h2 := hdrop
      have hres : split_text_into_pages content = [joinSep nlnl (q :: qs)] := by
        have hqne : q ≠ [] := hq
        have hlen2 : (joinSep nlnl (q :: qs)).length ≤ content.length := by
          have h1 := joinSep_dropWhile_length nlnl (pySplit nlnl content)
          rw [hdrop, hjoin] at h1
          exact h1
        have hglue : q.length
            + ((qs.map fun p => nlnl ++ p).flatten).length ≤ 3000 := by
          have := joinSep_cons nlnl qs q
          have hlen3 : (joinSep nlnl (q :: qs)).length
              = q.length + ((qs.map fun p => nlnl ++ p).flatten).length := by
            rw [this, List.length_append]
          omega
        rw [hsplit, packPages_dropWhile_empty, hdrop, packPages_cons_of_ne,
          packPages_fits 3000 qs q hqne hglue, joinSep_cons]
      rw [hres, ← hsp, hjoin]

/-- Witness for C5 amended: marker-free content `"hello"` below the length
bound with a non-empty first paragraph extracts to the single page
`"hello"`. -/
theorem c5_amended_witness :
    split_text_into_pages "hello".data = ["hello".data] :=
  (c5_amended.2 "hello".data (by decide) (by decide)).2.2
    "hello".data [] (by decide) (by decide)


/-- C6 (code evaluation at the failing input): the page-break clause
`para.text.strip() == "\f"` of `extract_text_from_docx` can never hold —
`strip` removes form feeds, so no stripped string equals `"\f"` — and
consequently a DOCX whose two break paragraphs are form-feed paragraphs
collapses to a single page `{1: "a\n\x0c\nb\n\x0c\nc"}` instead of the
three pages the claim (and the clause's evident intent) requires. -/
theorem c6_formfeed_break_dead :
    (∀ t : List Char, pyStrip t ≠ ['\x0c'])
    ∧ extract_text_from_docx
        [⟨"a".data, none⟩, ⟨['\x0c'], none⟩, ⟨"b".data, none⟩,
         ⟨['\x0c'], none⟩, ⟨"c".data, none⟩]
      = [(1, ("a\n" ++ "\x0c" ++ "\nb\n" ++ "\x0c" ++ "\nc").data)]
    ∧ (extract_text_from_docx
        [⟨"a".data, none⟩, ⟨['\x0c'], none⟩, ⟨"b".data, none⟩,
         ⟨['\x0c'], none⟩, ⟨"c".data, none⟩]).length ≠ 3 :=
  ⟨pyStrip_ne_formfeed, by decide, by decide⟩


/-- C7: for a PDF path, `convert_page_to_image` returns `.ok ""` (no
exception) whenever `page_num` lies outside `1..page_count` — the fitz
renderer rejects the range explicitly and the pdf2image fallback yields no
image outside the range — and for a valid, renderable page it returns the
non-empty base64 encoding of the rendered JPEG bytes, which decodes back to
those JPEG bytes. -/
theorem c7_page_image (env : FitzRenderEnv) (p2 : Pdf2ImageEnv)
    (pptx_env : PptxConvertEnv) (text_file_types : List (List Char))
    (document_path : List Char) (page_num : Int)
    (hpath : fileExtOf document_path = "pdf".data)
    (hopen : env.open_ok = true)
    (hrender : ∀ i b, env.render_jpeg i = some b →
        b ≠ [] ∧ isJpeg b = true ∧ ∀ x ∈ b, x < 256)
    (hfallback : ∀ pn : Int, pn < 1 ∨ pn > (env.page_count : Int) →
        p2.convert_from_path pn = none ∨ p2.convert_from_path pn = some []) :
    ((page_num < 1 ∨ page_num > (env.page_count : Int)) →
      convert_page_to_image env p2 pptx_env text_file_types document_path
          page_num = .ok [])
    ∧ (∀ b, 1 ≤ page_num → page_num ≤ (env.page_count : Int) →
        env.render_jpeg (page_num - 1).toNat = some b →
        convert_page_to_image env p2 pptx_env text_file_types document_path
            page_num = .ok (base64Encode b)
        ∧ base64Encode b ≠ []
        ∧ base64Decode (base64Encode b) = some b
        ∧ isJpeg b = true) := by
  constructor
  · intro hinv
    have hfitz : convert_pdf_page_to_image_fitz env page_num = [] := by
      unfold convert_pdf_page_to_image_fitz
      rw [hopen]
      simp only [Bool.true_eq_false, if_false]
      rw [if_pos hinv]
    have hfall : convert_pdf_page_to_image p2 page_num = [] := by
      unfold convert_pdf_page_to_image
      rcases hfallback page_num hinv with h | h <;> rw [h]
    unfold convert_page_to_image
    rw [if_pos hpath]
    simp [hfitz, hfall]
  · intro b h1 h2 hb
    obtain ⟨hbne, hjpeg, hbound⟩ := hrender _ _ hb
    have hfitz : convert_pdf_page_to_image_fitz env page_num
        = base64Encode b := by
      unfold convert_pdf_page_to_image_fitz
      rw [hopen]
      simp only [Bool.true_eq_false, if_false]
      rw [if_neg (by omega), hb]
    have hne : base64Encode b ≠ [] := base64Encode_ne_nil b hbne
    refine ⟨?_, hne, base64_roundtrip b hbound, hjpeg⟩
    unfold convert_page_to_image
    rw [if_pos hpath]
    simp only [hfitz, if_pos hne]

/-- Witness for C7 at a one-page PDF whose page renders to the JPEG bytes
`FF D8 00`: page 2 is out of range and yields `.ok ""`, page 1 yields the
non-empty base64 string `"/9gA"`. -/
theorem c7_page_image_witness :
    convert_page_to_image ⟨true, 1, fun _ => some [255, 216, 0]⟩
        ⟨fun _ => some []⟩ ⟨false, false, none, none⟩ [] "doc.pdf".data 2
      = .ok []
    ∧ convert_page_to_image ⟨true, 1, fun _ => some [255, 216, 0]⟩
        ⟨fun _ => some []⟩ ⟨false, false, none, none⟩ [] "doc.pdf".data 1
      = .ok (base64Encode [255, 216, 0]) := by
  have h2 := c7_page_image ⟨true, 1, fun _ => some [255, 216, 0]⟩
    ⟨fun _ => some []⟩ ⟨false, false, none, none⟩ [] "doc.pdf".data 2
    (by decide) rfl
    (by intro i b hb; injection hb with hb; subst hb; refine ⟨by decide, by decide, by decide⟩)
    (by intro pn hpn; right; rfl)
  have h1 := c7_page_image ⟨true, 1, fun _ => some [255, 216, 0]⟩
    ⟨fun _ => some []⟩ ⟨false, false, none, none⟩ [] "doc.pdf".data 1
    (by decide) rfl
    (by intro i b hb; injection hb with hb; subst hb; refine ⟨by decide, by decide, by decide⟩)
    (by intro pn hpn; right; rfl)
  exact ⟨h2.1 (by decide), (h1.2 [255, 216, 0] (by decide) (by decide) rfl).1⟩


/-- C8: `convert_pptx_slide_to_image` returns `""` — and, its whole body
being wrapped in `try/except` that returns `""`, never propagates an
exception — whenever neither converter binary probe succeeds, or the chosen
converter fails to leave the intermediate PDF in place (the subprocess
raising, the output file missing, or the rename of a missing LibreOffice
output raising are all caught). -/
theorem c8_pptx_no_converter (env : PptxConvertEnv) (p2 : Pdf2ImageEnv)
    (slide_num : Int)
    (h : (env.libreoffice_available = false ∧ env.unoconv_available = false)
      ∨ (env.libreoffice_available = true
          ∧ env.libreoffice_outcome ≠ some true)
      ∨ (env.libreoffice_available = false ∧ env.unoconv_available = true
          ∧ env.unoconv_outcome ≠ some true)) :
    convert_pptx_slide_to_image env p2 slide_num = [] := by
  unfold convert_pptx_slide_to_image
  rcases h with ⟨hlo, huno⟩ | ⟨hlo, hout⟩ | ⟨hlo, huno, hout⟩
  · rw [hlo, huno]
    simp
  · rw [hlo]
    simp only [if_true]
    rcases hcase : env.libreoffice_outcome with - | b
    · rfl
    · cases b
      · rfl
      · exact absurd hcase hout
  · rw [hlo, huno]
    simp only [Bool.false_eq_true, if_false, if_true]
    rcases hcase : env.unoconv_outcome with - | b
    · rfl
    · cases b
      · rfl
      · exact absurd hcase hout

/-- Witness for C8: with both probes failing, and separately with
LibreOffice present but its conversion never producing `output.pdf`, the
call returns the empty string. -/
theorem c8_pptx_no_converter_witness :
    convert_pptx_slide_to_image ⟨false, false, none, none⟩ ⟨fun _ => none⟩ 1 = []
    ∧ convert_pptx_slide_to_image ⟨true, false, some false, none⟩
        ⟨fun _ => none⟩ 1 = [] :=
  ⟨c8_pptx_no_converter _ _ 1 (Or.inl ⟨rfl, rfl⟩),
   c8_pptx_no_converter _ _ 1 (Or.inr (Or.inl ⟨rfl, by decide⟩))⟩

/-- Every per-page task of the bulk fitz image path returns
`(page_idx + 1, "")`: the pixmap is requested only after the `with` block
has closed the owning document, so the exception branch always runs. -/
theorem process_pdf_page_fitz_snd_empty (env : FitzRenderEnv)
    (page_idx : Nat) :
    process_pdf_page_fitz env page_idx = (page_idx + 1, []) := by
  unfold process_pdf_page_fitz
  by_cases h : env.open_ok = false ∨ env.page_count ≤ page_idx
  · rw [if_pos h]
  · rw [if_neg h]
    rfl

/-- C9 counterexample: a one-page PDF whose page conversion fails (as every
page's does — the pixmap is requested after the document is closed)
contributes no entry at all to the map returned by
`convert_pdf_to_images_fitz`: the empty per-page string is filtered out by
`if img_base64:`, so there is no empty-placeholder entry for page 1. -/
theorem c9_counterexample :
    convert_pdf_to_images_fitz ⟨true, 1, fun _ => some [255, 216]⟩ 4 [0] = []
    ∧ List.lookup 1
        (convert_pdf_to_images_fitz ⟨true, 1, fun _ => some [255, 216]⟩ 4 [0])
      = none := by
  refine ⟨by decide, by decide⟩

/-- C9 amended: a page whose conversion fails in the bulk fitz path is
recovered locally — the worker returns `(page, "")` instead of raising — but
the page is then omitted from the returned map rather than contributing an
empty placeholder entry; since the closed-document pixmap access makes every
page fail, no page number is ever a key of the returned map, and the call
never raises (the enclosing `try/except` returns `{}`). -/
theorem c9_amended (env : FitzRenderEnv) (max_workers : Nat)
    (completion_order : List Nat) (page_num : Nat) :
    List.lookup page_num
        (convert_pdf_to_images_fitz env max_workers completion_order)
      = none := by
  have hempty : convert_pdf_to_images_fitz env max_workers completion_order
      = [] := by
    unfold convert_pdf_to_images_fitz
    by_cases hopen : env.open_ok = false
    · rw [if_pos hopen]
    · rw [if_neg hopen]
      induction completion_order with
      | nil => rfl
      | cons i rest ih =>
        simp only [List.map_cons, List.filterMap_cons,
          process_pdf_page_fitz_snd_empty env i]
        simpa using ih
  rw [hempty]
  rfl


/-- C10: in `_process_pdf_page_fitz` the pixmap is requested from the page
only after the `with` block has closed the owning fitz document, so every
per-page task takes its exception branch and returns `(page number, "")`;
consequently `convert_pdf_to_images_fitz`, which discards empty per-page
results, returns the empty map for every PDF, and for a `.pdf` path
`convert_document_pages_to_images` returns that same empty fast-path result
— the pdf2image fallback, reachable only through an exception from the fast
path, is never consulted (the result does not depend on it). -/
theorem c10_closed_document_pixmap (env : FitzRenderEnv)
    (fallback_images : Option (List (List Nat))) (path : List Char)
    (max_workers : Nat) (completion_order : List Nat) :
    (∀ page_idx, process_pdf_page_fitz env page_idx = (page_idx + 1, []))
    ∧ convert_pdf_to_images_fitz env max_workers completion_order = []
    ∧ (fileExtOf path = "pdf".data →
        convert_document_pages_to_images env fallback_images path
            max_workers completion_order
          = convert_pdf_to_images_fitz env max_workers completion_order
        ∧ convert_document_pages_to_images env fallback_images path
            max_workers completion_order = []) := by
  have hempty : convert_pdf_to_images_fitz env max_workers completion_order
      = [] := by
    unfold convert_pdf_to_images_fitz
    by_cases hopen : env.open_ok = false
    · rw [if_pos hopen]
    · rw [if_neg hopen]
      induction completion_order with
      | nil => rfl
      | cons i rest ih =>
        simp only [List.map_cons, List.filterMap_cons,
          process_pdf_page_fitz_snd_empty env i]
        simpa using ih
  refine ⟨process_pdf_page_fitz_snd_empty env, hempty, ?_⟩
  intro hpdf
  unfold convert_document_pages_to_images
  rw [if_pos hpdf]
  exact ⟨rfl, hempty⟩

/-- Witness for C10 at a concrete healthy-looking one-page PDF (the
document opens and the renderer could produce JPEG bytes) and a `.pdf`
path: the bulk conversion still returns the empty map, independently of the
pdf2image fallback data. -/
theorem c10_closed_document_pixmap_witness :
    process_pdf_page_fitz ⟨true, 1, fun _ => some [255, 216]⟩ 0 = (1, [])
    ∧ convert_pdf_to_images_fitz ⟨true, 1, fun _ => some [255, 216]⟩ 4 [0] = []
    ∧ convert_document_pages_to_images ⟨true, 1, fun _ => some [255, 216]⟩
        (some [[7]]) "x.pdf".data 4 [0] = [] := by
  have h := c10_closed_document_pixmap ⟨true, 1, fun _ => some [255, 216]⟩
    (some [[7]]) "x.pdf".data 4 [0]
  exact ⟨h.1 0, h.2.1, (h.2.2 (by decide)).2⟩

end DocLoader
